import Mathlib

/-!
Verification of the PostProxy n8n node (`nodes/PostProxy/PostProxy.node.ts`).

The node's core logic is dynamically-typed JavaScript working over parsed
JSON payloads.  We embed JavaScript values shallowly as the inductive type
`JSVal` (JSON values plus `undefined`, since the code distinguishes absent /
`undefined` properties from `null` ones), and translate each function of the
source file into a Lean definition over `JSVal`.  Property access on `null` /
`undefined` (which throws in JavaScript) and the few places where the code
would apply implicit JS coercions to non-JSON-shaped data are modelled with
`Option`, `none` standing for a thrown `TypeError` / unmodelled coercion.
-/

namespace PostProxy

/-- JavaScript values as manipulated by the node: JSON values plus
`undefined`.  Numbers are modelled as integers (every number occurring in
the verified code paths — ids, pagination counters, HTTP status codes — is
integral). -/
inductive JSVal where
  | undef : JSVal
  | null : JSVal
  | bool : Bool → JSVal
  | num : Int → JSVal
  | str : String → JSVal
  | arr : List JSVal → JSVal
  | obj : List (String × JSVal) → JSVal

namespace JSVal

mutual

/-- Decidable structural equality on JavaScript values. -/
def decEq : (a b : JSVal) → Decidable (a = b)
  | .undef, .undef => .isTrue rfl
  | .null, .null => .isTrue rfl
  | .bool a, .bool b =>
    if h : a = b then .isTrue (by rw [h]) else .isFalse (fun hc => h (by injection hc))
  | .num a, .num b =>
    if h : a = b then .isTrue (by rw [h]) else .isFalse (fun hc => h (by injection hc))
  | .str a, .str b =>
    if h : a = b then .isTrue (by rw [h]) else .isFalse (fun hc => h (by injection hc))
  | .arr xs, .arr ys =>
    match decEqList xs ys with
    | .isTrue h => .isTrue (by rw [h])
    | .isFalse h => .isFalse (fun hc => h (by injection hc))
  | .obj fs, .obj gs =>
    match decEqFields fs gs with
    | .isTrue h => .isTrue (by rw [h])
    | .isFalse h => .isFalse (fun hc => h (by injection hc))
  | .undef, .null | .undef, .bool _ | .undef, .num _ | .undef, .str _
  | .undef, .arr _ | .undef, .obj _
  | .null, .undef | .null, .bool _ | .null, .num _ | .null, .str _
  | .null, .arr _ | .null, .obj _
  | .bool _, .undef | .bool _, .null | .bool _, .num _ | .bool _, .str _
  | .bool _, .arr _ | .bool _, .obj _
  | .num _, .undef | .num _, .null | .num _, .bool _ | .num _, .str _
  | .num _, .arr _ | .num _, .obj _
  | .str _, .undef | .str _, .null | .str _, .bool _ | .str _, .num _
  | .str _, .arr _ | .str _, .obj _
  | .arr _, .undef | .arr _, .null | .arr _, .bool _ | .arr _, .num _
  | .arr _, .str _ | .arr _, .obj _
  | .obj _, .undef | .obj _, .null | .obj _, .bool _ | .obj _, .num _
  | .obj _, .str _ | .obj _, .arr _ => .isFalse (fun hc => nomatch hc)

/-- Decidable equality on lists of JavaScript values. -/
def decEqList : (xs ys : List JSVal) → Decidable (xs = ys)
  | [], [] => .isTrue rfl
  | [], _ :: _ => .isFalse (fun hc => nomatch hc)
  | _ :: _, [] => .isFalse (fun hc => nomatch hc)
  | x :: xs, y :: ys =>
    match decEq x y with
    | .isFalse h => .isFalse (fun hc => h (by injection hc))
    | .isTrue h1 =>
      match decEqList xs ys with
      | .isTrue h2 => .isTrue (by rw [h1, h2])
      | .isFalse h2 => .isFalse (fun hc => h2 (by injection hc))

/-- Decidable equality on object field lists. -/
def decEqFields : (fs gs : List (String × JSVal)) → Decidable (fs = gs)
  | [], [] => .isTrue rfl
  | [], _ :: _ => .isFalse (fun hc => nomatch hc)
  | _ :: _, [] => .isFalse (fun hc => nomatch hc)
  | (k, v) :: fs, (l, w) :: gs =>
    if h : k = l then
      match decEq v w with
      | .isFalse hv => .isFalse (fun hc => hv (by injection hc with h1 h2; injection h1))
      | .isTrue hv =>
        match decEqFields fs gs with
        | .isTrue ht => .isTrue (by rw [h, hv, ht])
        | .isFalse ht => .isFalse (fun hc => ht (by injection hc))
    else .isFalse (fun hc => h (by injection hc with h1 h2; injection h1))

end

instance : DecidableEq JSVal := decEq

instance {ε α : Type} [DecidableEq ε] [DecidableEq α] : DecidableEq (Except ε α) :=
  fun a b =>
    match a, b with
    | .ok x, .ok y =>
      if h : x = y then .isTrue (by rw [h]) else .isFalse (fun hc => h (by injection hc))
    | .error x, .error y =>
      if h : x = y then .isTrue (by rw [h]) else .isFalse (fun hc => h (by injection hc))
    | .ok _, .error _ => .isFalse (fun hc => nomatch hc)
    | .error _, .ok _ => .isFalse (fun hc => nomatch hc)

/-- JavaScript truthiness: `undefined`, `null`, `false`, `0` and `""` are
falsy; every other value (including empty arrays and objects) is truthy. -/
def truthy : JSVal → Bool
  | .undef => false
  | .null => false
  | .bool b => b
  | .num n => n != 0
  | .str s => s != ""
  | .arr _ => true
  | .obj _ => true

/-- JavaScript `a || b`: `a` when truthy, else `b`. -/
def jor (a b : JSVal) : JSVal := if truthy a then a else b

/-- First binding of `key` in an object's field list, `undef` when absent
(JavaScript property read on a plain object). -/
def lookupField : List (String × JSVal) → String → JSVal
  | [], _ => .undef
  | (k, v) :: rest, key => if k = key then v else lookupField rest key

/-- Whether a field list carries a binding for `key`. -/
def hasKeyF : List (String × JSVal) → String → Bool
  | [], _ => false
  | (k, _) :: rest, key => if k = key then true else hasKeyF rest key

/-- Property read `v.key` on a value already known not to be
`null`/`undefined`: objects look the key up, primitives and arrays have no
such own property and yield `undefined`. -/
def jget : JSVal → String → JSVal
  | .obj fs, key => lookupField fs key
  | _, _ => undef

/-- Optional chaining `v?.key`: `undefined` when the receiver is
`null`/`undefined`, otherwise an ordinary property read. -/
def optChain (v : JSVal) (key : String) : JSVal :=
  match v with
  | .undef => .undef
  | .null => .undef
  | _ => jget v key

/-- JavaScript `Array.isArray`. -/
def isArr : JSVal → Bool
  | .arr _ => true
  | _ => false

/-- Whether `typeof v === "object"` holds in JavaScript: `null`, arrays and
plain objects. -/
def typeofObject : JSVal → Bool
  | .null => true
  | .arr _ => true
  | .obj _ => true
  | _ => false

/-- Whether a value is a plain (non-`null`, non-array) object. -/
def isPlainObject : JSVal → Bool
  | .obj _ => true
  | _ => false

end JSVal

open JSVal

/-- Per-platform record remapping, from the `platforms.map` callback inside
`simplifyPost` (PostProxy.node.ts lines 63-96).  Reading `item.platform` on a
`null`/`undefined` array element would throw in JavaScript, hence `none`. -/
def mapPlatformItem (item : JSVal) : Option JSVal :=
  if item = .undef ∨ item = .null then none
  else
    let mapped := [("platform", jget item "platform"), ("status", jget item "status")]
    let mapped := if jget item "attempted_at" ≠ .undef then
        mapped ++ [("attempted_at", jget item "attempted_at")] else mapped
    let mapped := if jget item "params" ≠ .undef ∧ jget item "params" ≠ .null then
        mapped ++ [("params", jget item "params")] else mapped
    let mapped := if jget item "insights" ≠ .undef ∧ jget item "insights" ≠ .null then
        mapped ++ [("insights", jget item "insights")] else mapped
    let mapped := if jget item "profile_id" ≠ .undef then
        mapped ++ [("profile_id", jget item "profile_id")] else mapped
    let mapped := if jget item "error" ≠ .undef then
        mapped ++ [("error", jget item "error")] else mapped
    let mapped := if jget item "published_url" ≠ .undef then
        mapped ++ [("published_url", jget item "published_url")] else mapped
    some (.obj mapped)

/-- Function `simplifyPost` (PostProxy.node.ts lines 25-102).  `none` models the two
ways the JavaScript function can throw: a `null`/`undefined` argument, and a
truthy non-array value in the platforms/networks/accounts slot (on which
`.map` is not a function). -/
def simplifyPost (post : JSVal) : Option JSVal :=
  if post = .undef ∨ post = .null then none
  else
    let content := jor (jget post "content")
      (jor (optChain (jget post "post") "body") (jor (jget post "body") (.str "")))
    let platforms := jor (jget post "platforms")
      (jor (jget post "networks") (jor (jget post "accounts") (.arr [])))
    let result := [("id", jget post "id"), ("content", content),
      ("created_at", jget post "created_at")]
    let result := if jget post "status" ≠ .undef then
        result ++ [("status", jget post "status")] else result
    let result := if jget post "draft" ≠ .undef then
        result ++ [("draft", jget post "draft")] else result
    let result := if jget post "scheduled_at" ≠ .undef ∨
        optChain (jget post "post") "scheduled_at" ≠ .undef then
        result ++ [("scheduled_at",
          jor (optChain (jget post "post") "scheduled_at") (jget post "scheduled_at"))]
      else result
    let result := if jget post "updated_at" ≠ .undef then
        result ++ [("updated_at", jget post "updated_at")] else result
    let result := if jget post "profile_group_id" ≠ .undef then
        result ++ [("profile_group_id", jget post "profile_group_id")] else result
    match platforms with
    | .arr xs =>
      match xs.mapM mapPlatformItem with
      | some plist =>
        some (.obj (result ++ [("platforms", .arr plist), ("network_statuses", .arr plist)]))
      | none => none
    | _ => none

/-- Function `simplifyProfile` (PostProxy.node.ts lines 105-125).  `none` models the
throw on a `null`/`undefined` argument. -/
def simplifyProfile (profile : JSVal) : Option JSVal :=
  if profile = .undef ∨ profile = .null then none
  else
    let result := [("id", jget profile "id"),
      ("name", jor (jget profile "name") (jget profile "username")),
      ("platform", jget profile "platform"),
      ("profile_group_id", jget profile "profile_group_id"),
      ("status", jget profile "status"),
      ("created_at", jget profile "created_at")]
    let result := if jget profile "expires_at" ≠ .undef ∧ jget profile "expires_at" ≠ .null then
        result ++ [("expires_at", jget profile "expires_at")] else result
    let result := if jget profile "post_count" ≠ .undef then
        result ++ [("post_count", jget profile "post_count")] else result
    some (.obj result)

/-- Function `extractResourceLocatorValue` (PostProxy.node.ts lines 128-137).  Total:
the JavaScript function cannot throw (the only property access is guarded by
the `typeof`/non-`null` test). -/
def extractResourceLocatorValue (value : JSVal) : JSVal :=
  match value with
  | .str s => .str s
  | v => if typeofObject v ∧ v ≠ .null then jor (jget v "value") (.str "") else .str ""

/-- The structured error thrown by `makeRequest` via `NodeApiError`
(PostProxy.node.ts lines 207-211): short message, longer description, and
the status code rendered as a (possibly empty) string. -/
structure StructuredError where
  message : String
  description : String
  httpCode : String
deriving DecidableEq, Repr

/-- Expression `error.statusCode || error.response?.status` (line 168). -/
def statusCodeOf (err : JSVal) : JSVal :=
  jor (jget err "statusCode") (optChain (jget err "response") "status")

/-- Expression `error.response?.headers?.["x-request-id"]` (line 169). -/
def requestIdOf (err : JSVal) : JSVal :=
  optChain (optChain (jget err "response") "headers") "x-request-id"

/-- Expression `error.response?.body || \x7b\x7d` (line 180). -/
def errorBodyOf (err : JSVal) : JSVal :=
  jor (optChain (jget err "response") "body") (.obj [])

/-- Expression `errorBody.message || errorBody.error || error.message` (line 181). -/
def apiMessageOf (err : JSVal) : JSVal :=
  jor (jget (errorBodyOf err) "message")
    (jor (jget (errorBodyOf err) "error") (jget err "message"))

/-- Expression `apiMessage || dflt` as appended to the description (lines 185, 196):
the upstream message when truthy, else the default; a truthy non-string
would be string-coerced by JavaScript and is not modelled. -/
def apiMessageOr (err : JSVal) (dflt : String) : Option String :=
  if truthy (apiMessageOf err) then
    match apiMessageOf err with
    | .str s => some s
    | _ => none
  else some dflt

/-- The final `NodeApiError` construction (lines 207-211): the description
falls back to `error.message` when empty. -/
def mkNodeApiError (err : JSVal) (httpCode msg desc : String) : Option StructuredError :=
  if desc = "" then
    match jget err "message" with
    | .str s => some ⟨msg, s, httpCode⟩
    | _ => none
  else some ⟨msg, desc, httpCode⟩

/-- The `catch` block of `makeRequest` (PostProxy.node.ts lines 167-212),
classifying a failed HTTP request into the structured error it throws.
`none` models inputs outside the code's expectations, where JavaScript would
apply implicit coercions (a truthy non-string request id or `message`, a
truthy non-numeric status code) or throw (`null`/`undefined` error). -/
def classifyError (err : JSVal) : Option StructuredError :=
  if err = .undef ∨ err = .null then none
  else
    let statusCode := statusCodeOf err
    let requestId := requestIdOf err
    let httpCodeO : Option String :=
      match jor statusCode (.str "") with
      | .str s => some s
      | .num n => some (toString n)
      | _ => none
    let d0O : Option String :=
      if truthy requestId then
        match requestId with
        | .str s => some ("Request ID: " ++ s ++ "\n")
        | _ => none
      else some ""
    match d0O, httpCodeO with
    | some d0, some httpCode =>
      if truthy statusCode then
        match statusCode with
        | .num n =>
          if 400 ≤ n ∧ n < 500 then
            match apiMessageOr err "Client error" with
            | some am =>
              let hint := if n = 401 then "\n\nPlease check your API credentials."
                else if n = 404 then "\n\nThe requested resource was not found."
                else if n = 429 then "\n\nRate limit exceeded. Please try again later."
                else ""
              mkNodeApiError err httpCode ("PostProxy API error (" ++ toString n ++ ")")
                (d0 ++ am ++ hint)
            | none => none
          else if 500 ≤ n then
            match apiMessageOr err "Internal server error" with
            | some am =>
              mkNodeApiError err httpCode ("PostProxy API server error (" ++ toString n ++ ")")
                (d0 ++ am ++ "\n\nPlease try again later or contact PostProxy support.")
            | none => none
          else
            mkNodeApiError err httpCode "PostProxy API request failed" d0
        | _ => none
      else if jget err "code" = .str "ETIMEDOUT" ∨ jget err "code" = .str "ECONNABORTED" then
        mkNodeApiError err httpCode "PostProxy API request timed out"
          "The request took too long to complete. Please try again."
      else if jget err "code" = .str "ENOTFOUND" ∨ jget err "code" = .str "ECONNREFUSED" then
        mkNodeApiError err httpCode "PostProxy API connection failed"
          "Could not connect to PostProxy API. Please check your network connection."
      else
        mkNodeApiError err httpCode "PostProxy API request failed" d0
    | _, _ => none

/-- The validation errors the create-post branch can raise before its HTTP
request (PostProxy.node.ts lines 1264-1408), in source order. -/
inductive CreateErr where
  | contentEmpty
  | profileGroupMissing
  | noProfiles
  | publishAtRequired
  | invalidMediaUrls
  | invalidPlatformParams
deriving DecidableEq, Repr

/-- The `NodeOperationError` message of each create-post validation error. -/
def CreateErr.message : CreateErr → String
  | .contentEmpty => "Content cannot be empty"
  | .profileGroupMissing => "Profile Group must be selected"
  | .noProfiles => "At least one profile must be selected"
  | .publishAtRequired => "Publish At date is required"
  | .invalidMediaUrls => "Invalid media URLs provided"
  | .invalidPlatformParams => "Invalid Platform Parameters JSON"

/-- JavaScript `String.prototype.trim()`: strip leading and trailing whitespace.
(Kernel-reducible replacement for `String.trim`; the whitespace class covers
the ASCII whitespace relevant here.) -/
def jsTrim (s : String) : String :=
  ⟨((s.data.dropWhile Char.isWhitespace).reverse.dropWhile Char.isWhitespace).reverse⟩

/-- JavaScript `String.prototype.startsWith(p)`. -/
def jsStartsWith (s p : String) : Bool :=
  p.data.isPrefixOf s.data

/-- The `extractUrl` helper of the create-post media handling
(PostProxy.node.ts lines 1322-1349): `some` is a non-empty trimmed URL
candidate, `none` is the callback returning `null`. -/
def extractUrl : JSVal → Option String
  | .undef => none
  | .null => none
  | .str s => if 0 < (jsTrim s).length then some (jsTrim s) else none
  | .obj fs =>
    if hasKeyF fs "url" then
      match lookupField fs "url" with
      | .str s => if 0 < (jsTrim s).length then some (jsTrim s) else none
      | _ => none
    else none
  | .arr (x :: _) => extractUrl x
  | .arr [] => none
  | .bool _ => none
  | .num _ => none

/-- The scheme check of `processValue` (line 1362). -/
def isValidMediaUrl (url : String) : Bool :=
  jsStartsWith url "http://" || jsStartsWith url "https://"

/-- Callback `processValue` (PostProxy.node.ts lines 1355-1367) acting on the
`(urlsArray, invalidUrls)` accumulator pair. -/
def processMediaValue (st : List String × List String) (v : JSVal) :
    List String × List String :=
  match extractUrl v with
  | none => st
  | some url =>
    if isValidMediaUrl url then (st.1 ++ [url], st.2) else (st.1, st.2 ++ [url])

/-- Count `Object.keys(v).length` for the values `typeof v === "object"` admits. -/
def jsKeyCount : JSVal → Nat
  | .obj fs => fs.length
  | .arr xs => xs.length
  | _ => 0

/-- The `body.post` object built by the create-post branch
(PostProxy.node.ts lines 1299-1317): trimmed content, plus `scheduled_at`
when scheduling, plus `draft: true` (and optionally `scheduled_at`) for
drafts. -/
def createPostFields (content publishType publishAt : String) : List (String × JSVal) :=
  let postFields := [("body", JSVal.str (jsTrim content))]
  let postFields := if publishType = "schedule" ∧ publishAt ≠ "" then
      postFields ++ [("scheduled_at", JSVal.str (jsTrim publishAt))] else postFields
  if publishType = "draft" then
    (postFields ++ [("draft", JSVal.bool true)]) ++
      (if publishAt ≠ "" ∧ 0 < (jsTrim publishAt).length then
        [("scheduled_at", JSVal.str (jsTrim publishAt))] else [])
  else postFields

/-- The create-post branch of `execute` (PostProxy.node.ts lines 1253-1411):
validation in source order, then request-body construction.  `.error e`
means the corresponding `NodeOperationError` is thrown before any HTTP
request; `.ok body` means `makeRequest("POST", "/posts", body)` is issued
with exactly this body.  `JSON.parse` is an external builtin, abstracted as
the `parseJson` argument (`none` = parse failure). -/
def createPost (parseJson : String → Option JSVal) (content publishType : String)
    (profileGroupRaw : JSVal) (profiles : List String) (mediaUrls : JSVal)
    (publishAt : String) (platformParamsRaw : String) : Except CreateErr JSVal :=
  if jsTrim content = "" then .error .contentEmpty
  else
    let profileGroupId := extractResourceLocatorValue profileGroupRaw
    if ¬ truthy profileGroupId then .error .profileGroupMissing
    else if profiles.isEmpty then .error .noProfiles
    else if publishType = "schedule" ∧ jsTrim publishAt = "" then .error .publishAtRequired
    else
      let bodyFields := [("post", JSVal.obj (createPostFields content publishType publishAt)),
        ("profiles", JSVal.arr (profiles.map JSVal.str))]
      let mediaStep : Except CreateErr (List (String × JSVal)) :=
        if mediaUrls = .undef ∨ mediaUrls = .null then .ok bodyFields
        else
          let acc := match mediaUrls with
            | .arr vs => vs.foldl processMediaValue ([], [])
            | v => processMediaValue ([], []) v
          if acc.2 ≠ [] ∧ acc.1 = [] then .error .invalidMediaUrls
          else if acc.1 ≠ [] then
            .ok (bodyFields ++ [("media", JSVal.arr (acc.1.map JSVal.str))])
          else .ok bodyFields
      match mediaStep with
      | .error e => .error e
      | .ok bf =>
        if platformParamsRaw ≠ "" ∧ jsTrim platformParamsRaw ≠ "" ∧ platformParamsRaw ≠ "\x7b\x7d" then
          match parseJson platformParamsRaw with
          | none => .error .invalidPlatformParams
          | some params =>
            if truthy params ∧ typeofObject params ∧ 0 < jsKeyCount params then
              .ok (.obj (bf ++ [("params", params)]))
            else .ok (.obj bf)
        else .ok (.obj bf)

/-- The errors the update-post branch can raise (PostProxy.node.ts lines
1496-1524). -/
inductive UpdateErr where
  | postIdRequired
  | noFieldsToUpdate
deriving DecidableEq, Repr

/-- The `NodeOperationError` message of each update-post validation error. -/
def UpdateErr.message : UpdateErr → String
  | .postIdRequired => "Post ID is required"
  | .noFieldsToUpdate => "At least one field must be provided to update"

/-- The update-post branch of `execute` (PostProxy.node.ts lines 1491-1526):
`.error e` is a `NodeOperationError` thrown before any HTTP request, `.ok
body` the body of the `PATCH /posts/:id` request. -/
def updatePost (postIdRaw : JSVal) (updateFields : JSVal) : Except UpdateErr JSVal :=
  let postId := extractResourceLocatorValue postIdRaw
  if ¬ truthy postId then .error .postIdRequired
  else
    let c := jget updateFields "content"
    let s := jget updateFields "scheduled_at"
    let postFields := (if c ≠ .undef ∧ c ≠ .str "" then [("body", c)] else []) ++
      (if s ≠ .undef ∧ s ≠ .str "" then [("scheduled_at", s)] else [])
    if postFields = [] then .error .noFieldsToUpdate
    else .ok (.obj [("post", .obj postFields)])

/-- Mutable state of the `do … while` pagination loop shared (verbatim, up to
the endpoint) by the posts, profiles and profile-groups `getMany` branches
(PostProxy.node.ts lines 1447-1474, 1572-1599, 1624-1651). -/
structure LoopState where
  allItems : List JSVal
  currentPage : Int
  total : Int
  perPage : Int
  requests : Nat

/-- Expression `response.data || response.items || (Array.isArray(response) ? response
: [])` (line 1464).  `none` models a truthy non-array in that slot, on which
the subsequent `concat`/`length` would apply JS coercions not modelled
here. -/
def extractItems (r : JSVal) : Option (List JSVal) :=
  match jor (jget r "data") (jor (jget r "items") (if isArr r then r else .arr [])) with
  | .arr xs => some xs
  | _ => none

/-- One execution of the return-all pagination loop, counting HTTP requests.
`server page perPage` is the response of `GET …?page=…&per_page=…`.  Fuel
bounds the iteration count (the JavaScript loop has no such bound and may
diverge on adversarial servers); `none` also covers non-numeric
`total`/`per_page` values, whose JS comparisons are not modelled. -/
def runAllLoop (server : Int → Int → JSVal) : Nat → LoopState → Option LoopState
  | 0, _ => none
  | fuel + 1, st =>
    let r := server st.currentPage st.perPage
    match extractItems r with
    | none => none
    | some items =>
      let allItems := st.allItems ++ items
      match jor (jget r "total") (.num items.length),
          jor (jget r "per_page") (.num st.perPage) with
      | .num t, .num pp =>
        let st' : LoopState := ⟨allItems, st.currentPage + 1, t, pp, st.requests + 1⟩
        if (allItems.length : Int) < t then runAllLoop server fuel st' else some st'
      | _, _ => none

/-- A `getMany` branch of `execute` (identical for posts, profiles and
profile groups up to endpoint and simplifier): returns the number of HTTP
requests issued and the output envelope `(total, page, per_page, data)`
(PostProxy.node.ts lines 1443-1490).  `applySimplify` is the "simplify"
toggle and `simplifier` the per-item normalizer of the resource (the
profile-groups branch applies none). -/
def getMany (server : Int → Int → JSVal) (simplifier : JSVal → Option JSVal)
    (applySimplify returnAll : Bool) (pageParam perPageParam : Int) (limitParam : Nat)
    (fuel : Nat) : Option (Nat × JSVal) :=
  if returnAll then
    match runAllLoop server fuel ⟨[], 0, 0, 10, 0⟩ with
    | none => none
    | some st =>
      match (if applySimplify then st.allItems.mapM simplifier else some st.allItems) with
      | none => none
      | some items =>
        some (st.requests, .obj [("total", .num st.total), ("page", .num 0),
          ("per_page", .num st.perPage), ("data", .arr items)])
  else
    let r := server pageParam perPageParam
    match extractItems r with
    | none => none
    | some items0 =>
      let truncated := items0.take limitParam
      match (if applySimplify then truncated.mapM simplifier else some truncated) with
      | none => none
      | some items =>
        some (1, .obj [("total", .num items.length), ("page", .num pageParam),
          ("per_page", .num perPageParam), ("data", .arr items)])

/-- Modelled from the claim's hypotheses on the remote server (an external
collaborator): every page response reports `total = N` and `per_page = k`
and page `i` carries `min(k, N - i*k)` items. -/
def claimPageLen (N k : Nat) (page : Int) : Nat :=
  (min (k : Int) ((N : Int) - page * k)).toNat

/-- The paginated server described by claim C2's hypotheses. -/
def claimServer (N k : Nat) (page : Int) (_perPage : Int) : JSVal :=
  .obj [("total", .num N), ("per_page", .num k),
    ("data", .arr (List.replicate (claimPageLen N k page) (.obj [])))]

/-- An optional one-field segment: the shape `if (cond) result.key = v` gives
to the objects built by the normalizers.  Proof-side normal form for
`simplifyPost` / `mapPlatformItem` / `simplifyProfile` outputs. -/
def optSegP (c : Prop) [Decidable c] (k : String) (v : JSVal) : List (String × JSVal) :=
  if c then [(k, v)] else []

/-- The content fallback chain of `simplifyPost` (line 31). -/
def contentOf (post : JSVal) : JSVal :=
  jor (jget post "content")
    (jor (optChain (jget post "post") "body") (jor (jget post "body") (.str "")))

/-- The platform-list fallback chain of `simplifyPost` (line 33). -/
def platformsValueOf (post : JSVal) : JSVal :=
  jor (jget post "platforms")
    (jor (jget post "networks") (jor (jget post "accounts") (.arr [])))

/-- The `scheduled_at` value `simplifyPost` copies when present (line 51). -/
def schedValOf (post : JSVal) : JSVal :=
  jor (optChain (jget post "post") "scheduled_at") (jget post "scheduled_at")

/-- Normal form of the field list of `simplifyPost post` when the platform
list maps to `plist`. -/
def resultFields (post : JSVal) (plist : List JSVal) : List (String × JSVal) :=
  [("id", jget post "id"), ("content", contentOf post), ("created_at", jget post "created_at")]
    ++ optSegP (jget post "status" ≠ .undef) "status" (jget post "status")
    ++ optSegP (jget post "draft" ≠ .undef) "draft" (jget post "draft")
    ++ optSegP (jget post "scheduled_at" ≠ .undef ∨
        optChain (jget post "post") "scheduled_at" ≠ .undef) "scheduled_at" (schedValOf post)
    ++ optSegP (jget post "updated_at" ≠ .undef) "updated_at" (jget post "updated_at")
    ++ optSegP (jget post "profile_group_id" ≠ .undef) "profile_group_id"
        (jget post "profile_group_id")
    ++ [("platforms", .arr plist), ("network_statuses", .arr plist)]

/-- Normal form of the field list of `mapPlatformItem item`. -/
def mappedFields (item : JSVal) : List (String × JSVal) :=
  [("platform", jget item "platform"), ("status", jget item "status")]
    ++ optSegP (jget item "attempted_at" ≠ .undef) "attempted_at" (jget item "attempted_at")
    ++ optSegP (jget item "params" ≠ .undef ∧ jget item "params" ≠ .null) "params"
        (jget item "params")
    ++ optSegP (jget item "insights" ≠ .undef ∧ jget item "insights" ≠ .null) "insights"
        (jget item "insights")
    ++ optSegP (jget item "profile_id" ≠ .undef) "profile_id" (jget item "profile_id")
    ++ optSegP (jget item "error" ≠ .undef) "error" (jget item "error")
    ++ optSegP (jget item "published_url" ≠ .undef) "published_url" (jget item "published_url")

/-- Normal form of the field list of `simplifyProfile profile`. -/
def profileFields (profile : JSVal) : List (String × JSVal) :=
  [("id", jget profile "id"),
    ("name", jor (jget profile "name") (jget profile "username")),
    ("platform", jget profile "platform"),
    ("profile_group_id", jget profile "profile_group_id"),
    ("status", jget profile "status"),
    ("created_at", jget profile "created_at")]
    ++ optSegP (jget profile "expires_at" ≠ .undef ∧ jget profile "expires_at" ≠ .null)
        "expires_at" (jget profile "expires_at")
    ++ optSegP (jget profile "post_count" ≠ .undef) "post_count" (jget profile "post_count")

/-! ### Lookup lemmas -/

theorem lookupField_append (l1 l2 : List (String × JSVal)) (key : String) :
    lookupField (l1 ++ l2) key =
      if hasKeyF l1 key then lookupField l1 key else lookupField l2 key := by
  induction l1 with
  | nil => simp [lookupField, hasKeyF]
  | cons hd tl ih =>
    obtain ⟨k, v⟩ := hd
    by_cases h : k = key <;> simp [lookupField, hasKeyF, h, ih]

theorem hasKeyF_append (l1 l2 : List (String × JSVal)) (key : String) :
    hasKeyF (l1 ++ l2) key = (hasKeyF l1 key || hasKeyF l2 key) := by
  induction l1 with
  | nil => simp [hasKeyF]
  | cons hd tl ih =>
    obtain ⟨k, v⟩ := hd
    by_cases h : k = key <;> simp [hasKeyF, h, ih]

theorem hasKeyF_optSegP (c : Prop) [Decidable c] (k : String) (v : JSVal) (key : String) :
    hasKeyF (optSegP c k v) key = if k = key then decide c else false := by
  by_cases h : c <;> by_cases hk : k = key <;> simp [optSegP, hasKeyF, h, hk]

theorem lookupField_optSegP (c : Prop) [Decidable c] (k : String) (v : JSVal) (key : String) :
    lookupField (optSegP c k v) key =
      if k = key then (if c then v else .undef) else .undef := by
  by_cases h : c <;> by_cases hk : k = key <;> simp [optSegP, lookupField, h, hk]

theorem lookupField_eq_undef_of_not_hasKey (fs : List (String × JSVal)) (key : String)
    (h : hasKeyF fs key = false) : lookupField fs key = .undef := by
  induction fs with
  | nil => rfl
  | cons hd tl ih =>
    obtain ⟨k, v⟩ := hd
    by_cases hk : k = key
    · simp [hasKeyF, hk] at h
    · simp only [hasKeyF, if_neg hk] at h
      simp only [lookupField, if_neg hk]
      exact ih h

theorem build_seg (c : Prop) [Decidable c] (r : List (String × JSVal)) (k : String) (v : JSVal) :
    (if c then r ++ [(k, v)] else r) = r ++ optSegP c k v := by
  by_cases h : c <;> simp [optSegP, h]

theorem jor_undef_left (b : JSVal) : jor .undef b = b := rfl

theorem truthy_of_jor_ne (a b : JSVal) (hb : truthy b = false) (h : truthy (jor a b) = true) :
    jor a b = a ∧ truthy a = true := by
  by_cases ha : truthy a <;> simp [jor, ha] at h ⊢
  exact absurd h (by simp [hb])

/-! ### Claim C4: resource-locator extraction -/

/-- C4: `extractResourceLocatorValue` is total (it is a plain Lean function,
mirroring that the JavaScript original cannot throw) and: a plain non-empty
string returns itself; an object of shape `{mode, value}` returns its
`value`; `null`, `undefined`, a non-object value (boolean or number), and an
object without a `value` key all return `""`. -/
theorem extractResourceLocatorValue_spec :
    (∀ s : String, s ≠ "" → extractResourceLocatorValue (.str s) = .str s) ∧
    (∀ (mode : JSVal) (v : String),
      extractResourceLocatorValue (.obj [("mode", mode), ("value", .str v)]) = .str v) ∧
    (extractResourceLocatorValue .null = .str "" ∧
      extractResourceLocatorValue .undef = .str "") ∧
    ((∀ b : Bool, extractResourceLocatorValue (.bool b) = .str "") ∧
      (∀ n : Int, extractResourceLocatorValue (.num n) = .str "")) ∧
    (∀ fs : List (String × JSVal), hasKeyF fs "value" = false →
      extractResourceLocatorValue (.obj fs) = .str "") := by
  refine ⟨fun s _ => rfl, fun mode v => ?_, ⟨rfl, rfl⟩, ⟨fun b => rfl, fun n => rfl⟩,
    fun fs h => ?_⟩
  · by_cases hv : v = "" <;>
      simp [extractResourceLocatorValue, typeofObject, jget, lookupField, jor, truthy, hv]
  · simp [extractResourceLocatorValue, typeofObject, jget,
      lookupField_eq_undef_of_not_hasKey fs "value" h, jor, truthy]

/-- Witness for C4 at concrete inputs. -/
theorem extractResourceLocatorValue_spec_witness :
    extractResourceLocatorValue (.str "abc") = .str "abc" ∧
    extractResourceLocatorValue (.obj [("mode", .str "list"), ("value", .str "g1")]) = .str "g1" ∧
    extractResourceLocatorValue (.obj [("mode", .str "id")]) = .str "" :=
  ⟨extractResourceLocatorValue_spec.1 "abc" (by decide),
    extractResourceLocatorValue_spec.2.1 (.str "list") "g1",
    extractResourceLocatorValue_spec.2.2.2.2 [("mode", .str "id")] (by decide)⟩

/-! ### Claim C8: profile normalizer -/

/-- C8: for every non-throwing input, `simplifyProfile` returns an object
whose keys are exactly `id, name, platform, profile_group_id, status,
created_at`, plus `expires_at` only when present (and non-`null`) in the
input and `post_count` only when present; `name` is `profile.name` when
truthy and `profile.username` otherwise; and the concrete scenario from the
spec evaluates as stated, with no `expires_at`/`post_count` keys. -/
theorem simplifyProfile_spec :
    (∀ profile : JSVal, profile ≠ .undef → profile ≠ .null →
      simplifyProfile profile = some (.obj (profileFields profile)) ∧
      jget (.obj (profileFields profile)) "name"
        = jor (jget profile "name") (jget profile "username") ∧
      (profileFields profile).map Prod.fst
        = ["id", "name", "platform", "profile_group_id", "status", "created_at"]
          ++ (if jget profile "expires_at" ≠ .undef ∧ jget profile "expires_at" ≠ .null
              then ["expires_at"] else [])
          ++ (if jget profile "post_count" ≠ .undef then ["post_count"] else [])) ∧
    simplifyProfile (.obj [("id", .str "p1"), ("username", .str "bob"),
        ("platform", .str "twitter"), ("profile_group_id", .str "g1"),
        ("status", .str "active"), ("created_at", .str "t")])
      = some (.obj [("id", .str "p1"), ("name", .str "bob"), ("platform", .str "twitter"),
        ("profile_group_id", .str "g1"), ("status", .str "active"), ("created_at", .str "t")]) := by
  constructor
  · intro profile h1 h2
    have h : ¬(profile = .undef ∨ profile = .null) := by simp [h1, h2]
    refine ⟨?_, ?_, ?_⟩
    · simp only [simplifyProfile, if_neg h, build_seg]
      rfl
    · simp [jget, profileFields, lookupField_append, hasKeyF, lookupField]
    · by_cases e1 : (jget profile "expires_at" ≠ .undef ∧ jget profile "expires_at" ≠ .null) <;>
        by_cases e2 : jget profile "post_count" ≠ .undef <;>
        simp [profileFields, optSegP, e1, e2]
  · decide

/-- Witness for C8's universally quantified part at the spec's concrete
scenario profile. -/
theorem simplifyProfile_spec_witness :
    simplifyProfile (.obj [("id", .str "p1"), ("username", .str "bob"),
        ("platform", .str "twitter"), ("profile_group_id", .str "g1"),
        ("status", .str "active"), ("created_at", .str "t")])
      = some (.obj (profileFields (.obj [("id", .str "p1"), ("username", .str "bob"),
        ("platform", .str "twitter"), ("profile_group_id", .str "g1"),
        ("status", .str "active"), ("created_at", .str "t")]))) :=
  (simplifyProfile_spec.1 (.obj [("id", .str "p1"), ("username", .str "bob"),
    ("platform", .str "twitter"), ("profile_group_id", .str "g1"),
    ("status", .str "active"), ("created_at", .str "t")]) (by decide) (by decide)).1

/-! ### Claim C10: update-post validation -/

/-- C10: with a non-empty post id, when both update fields (`content`,
`scheduled_at`) are absent or equal to the empty string, the update branch
raises the "At least one field must be provided to update" error (an
`Except.error`, i.e. before any HTTP request); an empty-string field is
treated as not provided and omitted from the PATCH body. -/
theorem updatePost_spec :
    (∀ postIdRaw updateFields : JSVal,
      truthy (extractResourceLocatorValue postIdRaw) = true →
      (jget updateFields "content" = .undef ∨ jget updateFields "content" = .str "") →
      (jget updateFields "scheduled_at" = .undef ∨
        jget updateFields "scheduled_at" = .str "") →
      updatePost postIdRaw updateFields = .error .noFieldsToUpdate) ∧
    UpdateErr.message .noFieldsToUpdate = "At least one field must be provided to update" ∧
    (∀ postIdRaw updateFields : JSVal,
      truthy (extractResourceLocatorValue postIdRaw) = true →
      (jget updateFields "content" = .undef ∨ jget updateFields "content" = .str "") →
      jget updateFields "scheduled_at" ≠ .undef →
      jget updateFields "scheduled_at" ≠ .str "" →
      updatePost postIdRaw updateFields
        = .ok (.obj [("post", .obj [("scheduled_at", jget updateFields "scheduled_at")])])) ∧
    (∀ postIdRaw updateFields : JSVal,
      truthy (extractResourceLocatorValue postIdRaw) = true →
      jget updateFields "content" ≠ .undef →
      jget updateFields "content" ≠ .str "" →
      (jget updateFields "scheduled_at" = .undef ∨
        jget updateFields "scheduled_at" = .str "") →
      updatePost postIdRaw updateFields
        = .ok (.obj [("post", .obj [("body", jget updateFields "content")])])) := by
  refine ⟨fun postIdRaw updateFields htr hc hs => ?_, rfl,
    fun postIdRaw updateFields htr hc hs1 hs2 => ?_,
    fun postIdRaw updateFields htr hc1 hc2 hs => ?_⟩
  · have hcn : ¬(jget updateFields "content" ≠ .undef ∧
        jget updateFields "content" ≠ .str "") := by
      rcases hc with h | h <;> simp [h]
    have hsn : ¬(jget updateFields "scheduled_at" ≠ .undef ∧
        jget updateFields "scheduled_at" ≠ .str "") := by
      rcases hs with h | h <;> simp [h]
    simp [updatePost, htr, hcn, hsn]
  · have hcn : ¬(jget updateFields "content" ≠ .undef ∧
        jget updateFields "content" ≠ .str "") := by
      rcases hc with h | h <;> simp [h]
    simp [updatePost, htr, hcn, hs1, hs2]
  · have hsn : ¬(jget updateFields "scheduled_at" ≠ .undef ∧
        jget updateFields "scheduled_at" ≠ .str "") := by
      rcases hs with h | h <;> simp [h]
    simp [updatePost, htr, hc1, hc2, hsn]

/-- Witness for C10 at concrete inputs: both fields empty strings gives the
validation error; empty `content` plus a real `scheduled_at` gives a PATCH
body without a `content`/`body` field. -/
theorem updatePost_spec_witness :
    updatePost (.str "post-1") (.obj [("content", .str ""), ("scheduled_at", .str "")])
      = .error .noFieldsToUpdate ∧
    updatePost (.str "post-1") (.obj [("content", .str ""), ("scheduled_at", .str "2025-01-01")])
      = .ok (.obj [("post", .obj [("scheduled_at", .str "2025-01-01")])]) :=
  ⟨updatePost_spec.1 (.str "post-1") (.obj [("content", .str ""), ("scheduled_at", .str "")])
      (by decide) (by decide) (by decide),
    by
      have h := updatePost_spec.2.2.1 (.str "post-1")
        (.obj [("content", .str ""), ("scheduled_at", .str "2025-01-01")])
        (by decide) (by decide) (by decide) (by decide)
      simpa [jget, lookupField] using h⟩

/-! ### Claim C5: create-post validation order -/

/-- C5: the create-post branch validates, before its HTTP request (an
`Except.error` is a `NodeOperationError` thrown before `makeRequest` is
reached), in the fixed source order content → profile group → profiles →
publish-at, the first violated check determining the error.  In particular
empty content with a missing profile group yields the content error, and
`publishType = "schedule"` with empty `publish_at` yields the error whose
message starts with "Publish At". -/
theorem createPost_validation_order :
    (∀ (parseJson : String → Option JSVal) (content publishType : String)
      (profileGroupRaw : JSVal) (profiles : List String) (mediaUrls : JSVal)
      (publishAt platformParamsRaw : String),
      jsTrim content = "" →
      createPost parseJson content publishType profileGroupRaw profiles mediaUrls
        publishAt platformParamsRaw = .error .contentEmpty) ∧
    (∀ (parseJson : String → Option JSVal) (content publishType : String)
      (profileGroupRaw : JSVal) (profiles : List String) (mediaUrls : JSVal)
      (publishAt platformParamsRaw : String),
      jsTrim content ≠ "" →
      truthy (extractResourceLocatorValue profileGroupRaw) = false →
      createPost parseJson content publishType profileGroupRaw profiles mediaUrls
        publishAt platformParamsRaw = .error .profileGroupMissing) ∧
    (∀ (parseJson : String → Option JSVal) (content publishType : String)
      (profileGroupRaw : JSVal) (mediaUrls : JSVal) (publishAt platformParamsRaw : String),
      jsTrim content ≠ "" →
      truthy (extractResourceLocatorValue profileGroupRaw) = true →
      createPost parseJson content publishType profileGroupRaw [] mediaUrls
        publishAt platformParamsRaw = .error .noProfiles) ∧
    (∀ (parseJson : String → Option JSVal) (content : String)
      (profileGroupRaw : JSVal) (profiles : List String) (mediaUrls : JSVal)
      (publishAt platformParamsRaw : String),
      jsTrim content ≠ "" →
      truthy (extractResourceLocatorValue profileGroupRaw) = true →
      profiles ≠ [] →
      jsTrim publishAt = "" →
      createPost parseJson content "schedule" profileGroupRaw profiles mediaUrls
        publishAt platformParamsRaw = .error .publishAtRequired) ∧
    (CreateErr.message .contentEmpty = "Content cannot be empty" ∧
      CreateErr.message .publishAtRequired = "Publish At date is required" ∧
      ∃ rest, CreateErr.message .publishAtRequired = "Publish At" ++ rest) := by
  refine ⟨fun pj content pt g prs m pa pp h1 => ?_,
    fun pj content pt g prs m pa pp h1 h2 => ?_,
    fun pj content pt g m pa pp h1 h2 => ?_,
    fun pj content g prs m pa pp h1 h2 h3 h4 => ?_,
    rfl, rfl, ⟨" date is required", rfl⟩⟩
  · unfold createPost
    rw [if_pos h1]
  · unfold createPost
    rw [if_neg h1, if_pos (by simp [h2])]
  · unfold createPost
    rw [if_neg h1, if_neg (by simp [h2]),
      if_pos (show (List.isEmpty ([] : List String)) = true from rfl)]
  · have hne : prs.isEmpty = false := by
      cases prs with
      | nil => exact absurd rfl h3
      | cons p ps => rfl
    unfold createPost
    rw [if_neg h1, if_neg (by simp [h2]), if_neg (by simp [hne]), if_pos ⟨rfl, h4⟩]

/-- Witness for C5: empty content together with a missing profile group
raises the content error (not the profile-group error), and `schedule` with
empty `publish_at` raises the publish-at error without reaching the HTTP
request. -/
theorem createPost_validation_order_witness :
    createPost (fun _ => none) "" "publish_now" .null ["p1"] .null "" "" =
      .error .contentEmpty ∧
    createPost (fun _ => none) "Hello" "schedule" (.str "g1") ["p1"] .null "" "" =
      .error .publishAtRequired :=
  ⟨createPost_validation_order.1 (fun _ => none) "" "publish_now" .null ["p1"] .null "" ""
      (by decide),
    createPost_validation_order.2.2.2.1 (fun _ => none) "Hello" (.str "g1") ["p1"] .null "" ""
      (by decide) (by decide) (by decide) (by decide)⟩

/-! ### Claim C7: media-URL filtering in create-post -/

theorem media_fold (vs : List JSVal) (a b : List String) :
    vs.foldl processMediaValue (a, b)
      = (a ++ (vs.filterMap extractUrl).filter (fun u => isValidMediaUrl u),
          b ++ (vs.filterMap extractUrl).filter (fun u => !isValidMediaUrl u)) := by
  induction vs generalizing a b with
  | nil => simp
  | cons v vs ih =>
    simp only [List.foldl_cons, List.filterMap_cons]
    cases hv : extractUrl v with
    | none => simp [processMediaValue, hv, ih]
    | some url =>
      by_cases hu : isValidMediaUrl url <;>
        simp [processMediaValue, hv, hu, ih, List.filter_cons]

/-- C7: in the create-post branch (with otherwise valid parameters and no
platform parameters), a supplied string media value is trimmed and yields a
URL candidate iff the trimmed string is non-empty; a candidate survives iff
it starts with `http://` or `https://`; a `media` key is attached to the
request body iff at least one URL survives (and then carries exactly the
survivors, in order); and the "Invalid media URLs provided" error is raised
iff at least one candidate was produced and none survived. -/
theorem createPost_media_spec :
    (∀ (parseJson : String → Option JSVal) (content publishType : String)
      (profileGroupRaw : JSVal) (profiles : List String) (publishAt : String)
      (vs : List JSVal),
      jsTrim content ≠ "" →
      truthy (extractResourceLocatorValue profileGroupRaw) = true →
      profiles ≠ [] →
      ¬(publishType = "schedule" ∧ jsTrim publishAt = "") →
      (createPost parseJson content publishType profileGroupRaw profiles (.arr vs)
          publishAt "\x7b\x7d" = .error .invalidMediaUrls ↔
        ((vs.filterMap extractUrl).filter (fun u => !isValidMediaUrl u) ≠ [] ∧
          (vs.filterMap extractUrl).filter (fun u => isValidMediaUrl u) = [])) ∧
      (∀ body : JSVal,
        createPost parseJson content publishType profileGroupRaw profiles (.arr vs)
          publishAt "\x7b\x7d" = .ok body →
        ∃ postFields : List (String × JSVal),
          body = .obj ([("post", .obj postFields),
            ("profiles", .arr (profiles.map JSVal.str))]
            ++ optSegP ((vs.filterMap extractUrl).filter (fun u => isValidMediaUrl u) ≠ [])
              "media"
              (.arr (((vs.filterMap extractUrl).filter
                (fun u => isValidMediaUrl u)).map JSVal.str))))) ∧
    (∀ s : String, extractUrl (.str s) = if jsTrim s = "" then none else some (jsTrim s)) ∧
    (∀ u : String, isValidMediaUrl u = (jsStartsWith u "http://" || jsStartsWith u "https://")) := by
  refine ⟨fun pj content pt g prs pa vs h1 h2 h3 h4 => ?_, fun s => ?_, fun u => rfl⟩
  · have hne : prs.isEmpty = false := by
      cases prs with
      | nil => exact absurd rfl h3
      | cons p ps => rfl
    have hfold := media_fold vs [] []
    simp only [List.nil_append] at hfold
    by_cases hcase : ((vs.filterMap extractUrl).filter (fun u => !isValidMediaUrl u) ≠ [] ∧
        (vs.filterMap extractUrl).filter (fun u => isValidMediaUrl u) = [])
    · have hkey : createPost pj content pt g prs (.arr vs) pa "\x7b\x7d"
          = .error .invalidMediaUrls := by
        unfold createPost
        rw [if_neg h1, if_neg (by simp [h2]), if_neg (by simp [hne]), if_neg h4]
        simp only [hfold,
          if_neg (by simp : ¬(JSVal.arr vs = JSVal.undef ∨ JSVal.arr vs = JSVal.null)),
          if_pos hcase]
      refine ⟨?_, fun body hbody => ?_⟩
      · rw [hkey]
        exact iff_of_true rfl hcase
      · rw [hkey] at hbody
        exact absurd hbody (by simp)
    · have hkey : createPost pj content pt g prs (.arr vs) pa "\x7b\x7d"
          = .ok (.obj ([("post", .obj (createPostFields content pt pa)),
              ("profiles", .arr (prs.map JSVal.str))]
              ++ optSegP ((vs.filterMap extractUrl).filter (fun u => isValidMediaUrl u) ≠ [])
                "media" (.arr (((vs.filterMap extractUrl).filter
                  (fun u => isValidMediaUrl u)).map JSVal.str)))) := by
        unfold createPost
        rw [if_neg h1, if_neg (by simp [h2]), if_neg (by simp [hne]), if_neg h4]
        by_cases hurl : (vs.filterMap extractUrl).filter (fun u => isValidMediaUrl u) ≠ []
        · simp only [hfold,
            if_neg (by simp : ¬(JSVal.arr vs = JSVal.undef ∨ JSVal.arr vs = JSVal.null)),
            if_neg hcase, if_pos hurl, optSegP]
          simp
        · simp only [hfold,
            if_neg (by simp : ¬(JSVal.arr vs = JSVal.undef ∨ JSVal.arr vs = JSVal.null)),
            if_neg hcase, if_neg hurl, optSegP]
          simp [hurl]
      refine ⟨?_, fun body hbody => ?_⟩
      · rw [hkey]
        exact iff_of_false (by simp) hcase
      · rw [hkey] at hbody
        injection hbody with hb
        exact ⟨createPostFields content pt pa, hb.symm⟩
  · simp only [extractUrl]
    by_cases h : jsTrim s = ""
    · simp [h]
    · have hlen : 0 < (jsTrim s).length := by
        rcases hts : jsTrim s with ⟨l⟩
        cases l with
        | nil => exact absurd (by rw [hts]) h
        | cons c cs => simp [String.length]
      simp [h, hlen]

/-- Witness for C7: a mix of one invalid and one valid media URL attaches a
`media` key carrying exactly the trimmed valid URL; two values that yield no
surviving URL (one bad scheme, one whitespace-only) raise the
"Invalid media URLs provided" error. -/
theorem createPost_media_spec_witness :
    createPost (fun _ => none) "Hello" "publish_now" (.str "g1") ["p1"]
        (.arr [.str "ftp://x", .str "  "]) "" "\x7b\x7d" = .error .invalidMediaUrls ∧
    (∃ postFields : List (String × JSVal),
      (JSVal.obj [("post", .obj [("body", .str "Hello")]), ("profiles", .arr [.str "p1"]),
        ("media", .arr [.str "https://a.png"])])
        = .obj ([("post", .obj postFields), ("profiles", .arr [.str "p1"])]
          ++ optSegP ((([JSVal.str "ftp://x",
                JSVal.str " https://a.png "].filterMap extractUrl).filter
              (fun u => isValidMediaUrl u)) ≠ []) "media"
            (.arr ((([JSVal.str "ftp://x",
                JSVal.str " https://a.png "].filterMap extractUrl).filter
              (fun u => isValidMediaUrl u)).map JSVal.str)))) :=
  ⟨(createPost_media_spec.1 (fun _ => none) "Hello" "publish_now" (.str "g1") ["p1"] ""
      [.str "ftp://x", .str "  "] (by decide) (by decide) (by decide) (by decide)).1.mpr
      (by decide),
    (createPost_media_spec.1 (fun _ => none) "Hello" "publish_now" (.str "g1") ["p1"] ""
      [.str "ftp://x", .str " https://a.png "] (by decide) (by decide) (by decide)
      (by decide)).2 _ (by decide)⟩

/-! ### Claim C9: bounded-mode output envelope -/

theorem mapM_some_length {α β : Type} (f : α → Option β) :
    ∀ (xs : List α) (ys : List β), xs.mapM f = some ys → ys.length = xs.length := by
  intro xs
  induction xs with
  | nil =>
    intro ys h
    rw [List.mapM_nil] at h
    cases h
    rfl
  | cons x xs ih =>
    intro ys h
    rw [List.mapM_cons] at h
    cases hfx : f x with
    | none => rw [hfx] at h; exact absurd h (by simp)
    | some y =>
      rw [hfx] at h
      cases hrest : xs.mapM f with
      | none => rw [hrest] at h; exact absurd h (by simp)
      | some ys2 =>
        rw [hrest] at h
        have hcons : y :: ys2 = ys := by simpa using h
        rw [← hcons]
        simp [ih ys2 hrest]

/-- C9: in bounded (`returnAll = false`) mode a list operation issues exactly
one request and emits an envelope whose `total` is the length of the `data`
array after client-side truncation to `limit` — `min(limit, items returned)`,
not the server-reported total — while `page` and `per_page` echo the
requested values. -/
theorem getMany_bounded_envelope :
    ∀ (resp : JSVal) (simplifier : JSVal → Option JSVal) (applySimplify : Bool)
      (page perPage : Int) (limit : Nat) (xs ys : List JSVal),
      extractItems resp = some xs →
      (if applySimplify then (xs.take limit).mapM simplifier else some (xs.take limit))
        = some ys →
      getMany (fun _ _ => resp) simplifier applySimplify false page perPage limit 1
        = some (1, .obj [("total", .num ys.length), ("page", .num page),
            ("per_page", .num perPage), ("data", .arr ys)]) ∧
      ys.length = min limit xs.length := by
  intro resp simplifier ap page perPage limit xs ys hx hmap
  have hlen : ys.length = min limit xs.length := by
    cases ap with
    | false =>
      rw [if_neg (by simp : ¬((false : Bool) = true))] at hmap
      injection hmap with h
      rw [← h, List.length_take]
    | true =>
      rw [if_pos rfl] at hmap
      rw [mapM_some_length simplifier _ _ hmap, List.length_take]
  refine ⟨?_, hlen⟩
  unfold getMany
  rw [if_neg (by simp : ¬((false : Bool) = true))]
  simp only [hx, hmap]

/-- Witness for C9: a page of three items with `limit = 2` yields one request
and an envelope with `total = 2 = min(2, 3)`, echoing `page`/`per_page`. -/
theorem getMany_bounded_envelope_witness :
    getMany (fun _ _ => .obj [("total", .num 57), ("per_page", .num 3),
        ("data", .arr [.obj [], .obj [], .obj []])])
        (fun v => some v) false false 4 3 2 1
      = some (1, .obj [("total", .num 2), ("page", .num 4), ("per_page", .num 3),
          ("data", .arr [.obj [], .obj []])]) ∧
    (2 : Nat) = min 2 3 :=
  (getMany_bounded_envelope (.obj [("total", .num 57), ("per_page", .num 3),
      ("data", .arr [.obj [], .obj [], .obj []])])
    (fun v => some v) false 4 3 2 [.obj [], .obj [], .obj []] [.obj [], .obj []]
    (by decide) (by decide))

/-! ### Claim C3: platforms / networks / accounts equivalence -/

theorem mapM_mapPlatformItem_isSome (xs : List JSVal)
    (h : ∀ v ∈ xs, isPlainObject v = true) :
    ∃ pl, xs.mapM mapPlatformItem = some pl := by
  induction xs with
  | nil => exact ⟨[], rfl⟩
  | cons x xs ih =>
    obtain ⟨pl, hpl⟩ := ih (fun v hv => h v (List.mem_cons_of_mem _ hv))
    have hx := h x (List.mem_cons_self _ _)
    have hne : ¬(x = .undef ∨ x = .null) := by
      cases x <;> simp_all [isPlainObject]
    have hm : ∃ m, mapPlatformItem x = some m := by
      unfold mapPlatformItem
      rw [if_neg hne]
      exact ⟨_, rfl⟩
    obtain ⟨m, hm⟩ := hm
    exact ⟨m :: pl, by rw [List.mapM_cons, hm, hpl]; rfl⟩

/-- Normal-form characterization of `simplifyPost`: when the argument is not
`null`/`undefined`, the platform slot holds the array `xs` and every element
maps, the output is the object `resultFields post plist`. -/
theorem simplifyPost_eq (post : JSVal) (h1 : post ≠ .undef) (h2 : post ≠ .null)
    (xs : List JSVal) (hp : platformsValueOf post = .arr xs)
    (plist : List JSVal) (hm : xs.mapM mapPlatformItem = some plist) :
    simplifyPost post = some (.obj (resultFields post plist)) := by
  have h : ¬(post = .undef ∨ post = .null) := by simp [h1, h2]
  unfold platformsValueOf at hp
  unfold simplifyPost
  rw [if_neg h]
  simp only [build_seg, hp, hm]
  rfl

theorem jget_resultFields_platforms (post : JSVal) (plist : List JSVal) :
    jget (.obj (resultFields post plist)) "platforms" = .arr plist := by
  unfold resultFields
  simp [jget, lookupField_append, hasKeyF_append, hasKeyF_optSegP, lookupField, hasKeyF]

/-- C3: for any base post object (carrying `id` and a content field, and none
of the three platform-list keys) and any list `xs` of platform-record
objects, `simplifyPost` produces the same `platforms` list whether `xs` is
supplied under `platforms`, `networks`, or `accounts`. -/
theorem simplifyPost_platform_aliases :
    ∀ (fs : List (String × JSVal)) (xs : List JSVal),
      hasKeyF fs "id" = true →
      (hasKeyF fs "content" = true ∨ hasKeyF fs "body" = true ∨
        optChain (lookupField fs "post") "body" ≠ .undef) →
      hasKeyF fs "platforms" = false →
      hasKeyF fs "networks" = false →
      hasKeyF fs "accounts" = false →
      (∀ v ∈ xs, isPlainObject v = true) →
      ∃ plist : JSVal,
        (simplifyPost (.obj (fs ++ [("platforms", .arr xs)]))).map
            (fun y => jget y "platforms") = some plist ∧
        (simplifyPost (.obj (fs ++ [("networks", .arr xs)]))).map
            (fun y => jget y "platforms") = some plist ∧
        (simplifyPost (.obj (fs ++ [("accounts", .arr xs)]))).map
            (fun y => jget y "platforms") = some plist := by
  intro fs xs _hid _hcontent hp hn ha hobjs
  obtain ⟨pl, hpl⟩ := mapM_mapPlatformItem_isSome xs hobjs
  have lp := lookupField_eq_undef_of_not_hasKey fs "platforms" hp
  have ln := lookupField_eq_undef_of_not_hasKey fs "networks" hn
  have la := lookupField_eq_undef_of_not_hasKey fs "accounts" ha
  have hp1 : platformsValueOf (.obj (fs ++ [("platforms", .arr xs)])) = .arr xs := by
    simp [platformsValueOf, jget, lookupField_append, lp, hp, lookupField, jor, truthy]
  have hp2 : platformsValueOf (.obj (fs ++ [("networks", .arr xs)])) = .arr xs := by
    simp [platformsValueOf, jget, lookupField_append, lp, ln, hp, hn, lookupField, jor, truthy]
  have hp3 : platformsValueOf (.obj (fs ++ [("accounts", .arr xs)])) = .arr xs := by
    simp [platformsValueOf, jget, lookupField_append, lp, ln, la, hp, hn, ha, lookupField,
      jor, truthy]
  have he1 := simplifyPost_eq (.obj (fs ++ [("platforms", .arr xs)]))
    (fun hh => nomatch hh) (fun hh => nomatch hh) xs hp1 pl hpl
  have he2 := simplifyPost_eq (.obj (fs ++ [("networks", .arr xs)]))
    (fun hh => nomatch hh) (fun hh => nomatch hh) xs hp2 pl hpl
  have he3 := simplifyPost_eq (.obj (fs ++ [("accounts", .arr xs)]))
    (fun hh => nomatch hh) (fun hh => nomatch hh) xs hp3 pl hpl
  exact ⟨.arr pl,
    by rw [he1]; simp [jget_resultFields_platforms],
    by rw [he2]; simp [jget_resultFields_platforms],
    by rw [he3]; simp [jget_resultFields_platforms]⟩

/-- Witness for C3 at a concrete base post and one-record platform list. -/
theorem simplifyPost_platform_aliases_witness :
    ∃ plist : JSVal,
      (simplifyPost (.obj ([("id", .str "1"), ("content", .str "c")]
          ++ [("platforms", .arr [.obj [("platform", .str "x"), ("status", .str "done")]])]))).map
          (fun y => jget y "platforms") = some plist ∧
      (simplifyPost (.obj ([("id", .str "1"), ("content", .str "c")]
          ++ [("networks", .arr [.obj [("platform", .str "x"), ("status", .str "done")]])]))).map
          (fun y => jget y "platforms") = some plist ∧
      (simplifyPost (.obj ([("id", .str "1"), ("content", .str "c")]
          ++ [("accounts", .arr [.obj [("platform", .str "x"), ("status", .str "done")]])]))).map
          (fun y => jget y "platforms") = some plist :=
  simplifyPost_platform_aliases [("id", .str "1"), ("content", .str "c")]
    [.obj [("platform", .str "x"), ("status", .str "done")]]
    (by decide) (Or.inl (by decide)) (by decide) (by decide) (by decide) (by decide)

/-! ### Claim C2: return-all pagination -/

theorem extractItems_claimServer (N k : Nat) (page perPage : Int) :
    extractItems (claimServer N k page perPage)
      = some (List.replicate (claimPageLen N k page) (.obj [])) := by
  simp [extractItems, claimServer, jget, lookupField, jor, truthy]

theorem jget_claimServer_total (N k : Nat) (page perPage : Int) :
    jget (claimServer N k page perPage) "total" = .num N := by
  simp [claimServer, jget, lookupField]

theorem jget_claimServer_per_page (N k : Nat) (page perPage : Int) :
    jget (claimServer N k page perPage) "per_page" = .num k := by
  simp [claimServer, jget, lookupField]

theorem claimPageLen_cast (N k i : Nat) :
    claimPageLen N k (i : Int) = min k (N - i * k) := by
  unfold claimPageLen
  have hik : ((i : Int)) * (k : Int) = ((i * k : Nat) : Int) := by push_cast; ring
  rw [hik]
  omega

/-- Loop invariant for the return-all pagination loop against the claim's
server: from page `i` with `i*k` items accumulated and `i*k < N`, the loop
terminates with `N` items after `ceil((N - i*k)/k)` further requests. -/
theorem runAllLoop_claimServer (N k : Nat) (hk : 0 < k) :
    ∀ (fuel : Nat), ∀ (i : Nat) (acc : List JSVal) (reqs : Nat) (tot pp : Int),
      acc.length = i * k →
      i * k < N →
      N ≤ (i + fuel) * k →
      ∃ final : LoopState,
        runAllLoop (claimServer N k) fuel ⟨acc, (i : Int), tot, pp, reqs⟩ = some final ∧
        final.allItems.length = N ∧
        final.requests = reqs + ((N - i * k) + k - 1) / k ∧
        final.total = N ∧ final.perPage = k := by
  intro fuel
  induction fuel with
  | zero =>
    intro i acc reqs tot pp h1 h2 h3
    exact absurd h3 (by simpa using Nat.not_le.mpr h2)
  | succ fuel ih =>
    intro i acc reqs tot pp h1 h2 h3
    have hN : N ≠ 0 := by omega
    have hlen : claimPageLen N k (i : Int) = min k (N - i * k) := claimPageLen_cast N k i
    have hjt : jor (jget (claimServer N k (i : Int) pp) "total")
        (.num (List.replicate (claimPageLen N k (i : Int)) (JSVal.obj [])).length)
        = .num N := by
      rw [jget_claimServer_total]
      simp [jor, truthy, hN]
    have hjp : jor (jget (claimServer N k (i : Int) pp) "per_page") (.num pp)
        = .num k := by
      rw [jget_claimServer_per_page]
      have : (k : Int) ≠ 0 := by omega
      simp [jor, truthy, this]
    have hstep : runAllLoop (claimServer N k) (fuel + 1) ⟨acc, (i : Int), tot, pp, reqs⟩
        = (if ((acc ++ List.replicate (claimPageLen N k (i : Int)) (JSVal.obj [])).length : Int)
              < (N : Int) then
            runAllLoop (claimServer N k) fuel
              ⟨acc ++ List.replicate (claimPageLen N k (i : Int)) (JSVal.obj []),
                (i : Int) + 1, N, k, reqs + 1⟩
          else
            some ⟨acc ++ List.replicate (claimPageLen N k (i : Int)) (JSVal.obj []),
              (i : Int) + 1, N, k, reqs + 1⟩) := by
      rw [runAllLoop]
      rw [extractItems_claimServer]
      simp only [hjt, hjp]
    have hacclen : (acc ++ List.replicate (claimPageLen N k (i : Int)) (JSVal.obj [])).length
        = i * k + min k (N - i * k) := by
      simp [hlen, h1]
    by_cases hlast : N ≤ i * k + k
    · -- last page: accumulate to exactly N and stop
      have hminv : i * k + min k (N - i * k) = N := by omega
      have hcond : ¬(((acc ++ List.replicate (claimPageLen N k (i : Int))
          (JSVal.obj [])).length : Int) < (N : Int)) := by
        rw [hacclen, hminv]
        omega
      rw [hstep, if_neg hcond]
      refine ⟨_, rfl, ?_, ?_, rfl, rfl⟩
      · simpa using hacclen.trans hminv
      · have hd1 : 1 ≤ (N - i * k + k - 1) / k := (Nat.le_div_iff_mul_le hk).mpr (by omega)
        have hd2 : (N - i * k + k - 1) / k < 2 := (Nat.div_lt_iff_lt_mul hk).mpr (by omega)
        simp only []
        omega
    · -- more pages remain
      have hmink : min k (N - i * k) = k := by omega
      have hcond : (((acc ++ List.replicate (claimPageLen N k (i : Int))
          (JSVal.obj [])).length : Int) < (N : Int)) := by
        rw [hacclen, hmink]
        omega
      rw [hstep, if_pos hcond]
      have hco : ((i : Int) + 1) = ((i + 1 : Nat) : Int) := by push_cast; ring
      rw [hco]
      have hexp : (i + 1) * k = i * k + k := by ring
      obtain ⟨final, hrun, hflen, hfreq, hft, hfp⟩ :=
        ih (i + 1) (acc ++ List.replicate (claimPageLen N k (i : Int)) (JSVal.obj []))
          (reqs + 1) N k (by rw [hacclen, hmink]; omega) (by omega)
          (by
            have hexp2 : (i + 1 + fuel) * k = (i + (fuel + 1)) * k := by ring
            omega)
      refine ⟨final, hrun, hflen, ?_, hft, hfp⟩
      rw [hfreq]
      have hdiv : (N - (i + 1) * k + k - 1) + k = N - i * k + k - 1 := by omega
      have hstepdiv := Nat.add_div_right (N - (i + 1) * k + k - 1) hk
      rw [hdiv] at hstepdiv
      omega

/-- C2, amended: against a server reporting `total = N`, `per_page = k > 0`
and `min(k, N - i*k)` items on page `i`, the return-all loop starts at page
0, terminates, accumulates exactly `N` items for every `N ≥ 0`, and issues
exactly `max(1, ceil(N/k))` requests — `ceil(N/k)` for `N ≥ 1`, but one
request (not zero) when `N = 0`, since the `do … while` loop always issues
its first request. -/
theorem getMany_returnAll_pagination :
    ∀ (N k : Nat), 0 < k →
      ∃ items : List JSVal,
        getMany (claimServer N k) simplifyPost false true 0 10 50 (N + 1)
          = some (max 1 ((N + k - 1) / k),
              .obj [("total", .num N), ("page", .num 0), ("per_page", .num k),
                ("data", .arr items)]) ∧
        items.length = N := by
  intro N k hk
  by_cases hN : N = 0
  · subst hN
    refine ⟨[], ?_, rfl⟩
    have hstep : runAllLoop (claimServer 0 k) 1 ⟨[], 0, 0, 10, 0⟩
        = some ⟨[], 1, 0, k, 1⟩ := by
      rw [runAllLoop]
      rw [show ((0 : Int)) = ((0 : Nat) : Int) from rfl, extractItems_claimServer]
      have h0 : claimPageLen 0 k ((0 : Nat) : Int) = 0 := by
        rw [claimPageLen_cast]
        omega
      rw [h0]
      have hkk : (k : Int) ≠ 0 := by omega
      simp [jor, truthy, jget_claimServer_total, jget_claimServer_per_page, hkk]
    unfold getMany
    rw [if_pos rfl, hstep]
    have hmax : max 1 ((0 + k - 1) / k) = 1 := by
      have : (0 + k - 1) / k = 0 := Nat.div_eq_of_lt (by omega)
      omega
    rw [hmax]
    rfl
  · obtain ⟨final, hrun, hflen, hfreq, hft, hfp⟩ :=
      runAllLoop_claimServer N k hk (N + 1) 0 [] 0 0 10 (by simp) (by omega)
        (by
          have h1 : N + 1 ≤ (N + 1) * k := Nat.le_mul_of_pos_right _ hk
          have h2 : (0 + (N + 1)) * k = (N + 1) * k := by ring
          omega)
    refine ⟨final.allItems, ?_, hflen⟩
    unfold getMany
    rw [if_pos rfl]
    rw [Nat.cast_zero] at hrun
    rw [hrun]
    have hreq : final.requests = max 1 ((N + k - 1) / k) := by
      have h1 : 1 ≤ (N + k - 1) / k := (Nat.le_div_iff_mul_le hk).mpr (by omega)
      have h2 : N - 0 * k = N := by omega
      rw [hfreq, h2] at *
      omega
    rw [← hreq, ← hft, ← hfp]
    rfl

/-- Witness for C2's amended theorem at `N = 21`, `k = 10`: three requests
(`ceil(21/10)`) and 21 accumulated items. -/
theorem getMany_returnAll_pagination_witness :
    ∃ items : List JSVal,
      getMany (claimServer 21 10) simplifyPost false true 0 10 50 (21 + 1)
        = some (max 1 ((21 + 10 - 1) / 10),
            .obj [("total", .num 21), ("page", .num 0), ("per_page", .num 10),
              ("data", .arr items)]) ∧
      items.length = 21 :=
  getMany_returnAll_pagination 21 10 (by decide)

/-- Counterexample to C2 as stated: for `N = 0`, `k = 10` the loop issues one
request, not `ceil(0/10) = 0` — the `do … while` always performs its first
request before checking the accumulated count. -/
theorem getMany_returnAll_pagination_counterexample :
    getMany (claimServer 0 10) simplifyPost false true 0 10 50 1
      = some (1, .obj [("total", .num 0), ("page", .num 0), ("per_page", .num 10),
          ("data", .arr [])]) ∧
    (0 + 10 - 1) / 10 = 0 ∧ (1 : Nat) ≠ 0 := by
  refine ⟨by decide, by decide, by decide⟩

/-! ### Claim C6: request id in error descriptions -/

/-- Counterexample to C6 as stated: a timeout-classified error
(`code = "ETIMEDOUT"`, no status code) whose response carries an
`x-request-id` header produces a description that does not contain the id —
the timeout branch assigns (rather than appends to) `description`,
discarding the previously prepended "Request ID:" prefix. -/
theorem classifyError_timeout_drops_request_id :
    classifyError (.obj [("code", .str "ETIMEDOUT"),
        ("message", .str "timeout of 30000ms exceeded"),
        ("response", .obj [("headers", .obj [("x-request-id", .str "req-123")])])])
      = some ⟨"PostProxy API request timed out",
          "The request took too long to complete. Please try again.", ""⟩ ∧
    requestIdOf (.obj [("code", .str "ETIMEDOUT"),
        ("message", .str "timeout of 30000ms exceeded"),
        ("response", .obj [("headers", .obj [("x-request-id", .str "req-123")])])])
      = .str "req-123" ∧
    ¬ ("req-123".data <:+:
        "The request took too long to complete. Please try again.".data) :=
  ⟨by decide, by decide, by decide⟩

/-- C6, amended: for every failed request classified with a truthy numeric
status code (all HTTP-classified errors, 4xx/5xx and otherwise), a truthy
`x-request-id` response header is prepended to the thrown error's
description as "Request ID: …"; for the timeout (ETIMEDOUT/ECONNABORTED)
and connectivity (ENOTFOUND/ECONNREFUSED) kinds, where no status code is
present, the description is replaced by the generic message and the request
id is dropped (see the counterexample). -/
theorem classifyError_request_id_in_description :
    ∀ (err : JSVal) (r : String) (n : Int) (e : StructuredError),
      requestIdOf err = .str r →
      r ≠ "" →
      statusCodeOf err = .num n →
      n ≠ 0 →
      classifyError err = some e →
      ∃ rest, e.description = "Request ID: " ++ r ++ "\n" ++ rest := by
  intro err r n e hrid hr hsc hn hclass
  have hne : ¬(err = .undef ∨ err = .null) := by
    rintro (h | h) <;> subst h <;> simp [requestIdOf, optChain, jget] at hrid
  unfold classifyError at hclass
  rw [if_neg hne] at hclass
  simp only [hrid, hsc] at hclass
  have htr : truthy (JSVal.str r) = true := by simp [truthy, hr]
  have htn : truthy (JSVal.num n) = true := by simp [truthy, hn]
  have hjor : jor (JSVal.num n) (.str "") = .num n := by simp [jor, htn]
  simp only [hjor, htr, htn, if_true] at hclass
  have hlen12 : ("Request ID: " : String).length = 12 := rfl
  have hempty : ("" : String).length = 0 := rfl
  have hdesc_ne2 : ∀ (x y : String), ("Request ID: " ++ r ++ "\n" ++ x ++ y) ≠ "" := by
    intro x y hc
    have hlen := congrArg String.length hc
    simp only [String.length_append, hempty, hlen12] at hlen
    omega
  have hdesc_ne0 : ("Request ID: " ++ r ++ "\n") ≠ "" := by
    intro hc
    have hlen := congrArg String.length hc
    simp only [String.length_append, hempty, hlen12] at hlen
    omega
  by_cases h4 : 400 ≤ n ∧ n < 500
  · rw [if_pos h4] at hclass
    cases ham : apiMessageOr err "Client error" with
    | none => rw [ham] at hclass; exact absurd hclass (by simp)
    | some am =>
      rw [ham] at hclass
      simp only [] at hclass
      unfold mkNodeApiError at hclass
      rw [if_neg (hdesc_ne2 am _)] at hclass
      injection hclass with h
      refine ⟨am ++ (if n = 401 then "\n\nPlease check your API credentials."
        else if n = 404 then "\n\nThe requested resource was not found."
        else if n = 429 then "\n\nRate limit exceeded. Please try again later." else ""), ?_⟩
      rw [← h]
      simp [String.append_assoc]
  · rw [if_neg h4] at hclass
    by_cases h5 : 500 ≤ n
    · rw [if_pos h5] at hclass
      cases ham : apiMessageOr err "Internal server error" with
      | none => rw [ham] at hclass; exact absurd hclass (by simp)
      | some am =>
        rw [ham] at hclass
        simp only [] at hclass
        unfold mkNodeApiError at hclass
        rw [if_neg (hdesc_ne2 am _)] at hclass
        injection hclass with h
        refine ⟨am ++ "\n\nPlease try again later or contact PostProxy support.", ?_⟩
        rw [← h]
        simp [String.append_assoc]
    · rw [if_neg h5] at hclass
      unfold mkNodeApiError at hclass
      rw [if_neg hdesc_ne0] at hclass
      injection hclass with h
      refine ⟨"", ?_⟩
      rw [← h]
      simp

/-- Witness for C6's amended theorem at a concrete 404 error carrying a
request id. -/
theorem classifyError_request_id_in_description_witness :
    ∃ rest,
      (StructuredError.mk "PostProxy API error (404)"
        "Request ID: req-9\nPost not found\n\nThe requested resource was not found."
        "404").description = "Request ID: " ++ "req-9" ++ "\n" ++ rest :=
  classifyError_request_id_in_description
    (.obj [("statusCode", .num 404), ("message", .str "fail"),
      ("response", .obj [("headers", .obj [("x-request-id", .str "req-9")]),
        ("body", .obj [("message", .str "Post not found")])])])
    "req-9" 404
    ⟨"PostProxy API error (404)",
      "Request ID: req-9\nPost not found\n\nThe requested resource was not found.", "404"⟩
    (by decide) (by decide) (by decide) (by decide) (by decide)

/-! ### Claim C1: simplifyPost idempotence -/

theorem ite_ne_undef_self (v : JSVal) : (if v ≠ .undef then v else .undef) = v := by
  by_cases h : v = .undef <;> simp [h]

theorem jget_obj (fs : List (String × JSVal)) (k : String) :
    jget (.obj fs) k = lookupField fs k := rfl

theorem mapPlatformItem_eq (item : JSVal) (h1 : item ≠ .undef) (h2 : item ≠ .null) :
    mapPlatformItem item = some (.obj (mappedFields item)) := by
  have h : ¬(item = .undef ∨ item = .null) := by simp [h1, h2]
  unfold mapPlatformItem
  rw [if_neg h]
  simp only [build_seg]
  rfl

theorem jget_mappedFields_platform (item : JSVal) :
    jget (.obj (mappedFields item)) "platform" = jget item "platform" := by
  simp [mappedFields, jget_obj, lookupField_append, hasKeyF_append, hasKeyF_optSegP,
    lookupField, hasKeyF]

theorem jget_mappedFields_status (item : JSVal) :
    jget (.obj (mappedFields item)) "status" = jget item "status" := by
  simp [mappedFields, jget_obj, lookupField_append, hasKeyF_append, hasKeyF_optSegP,
    lookupField, hasKeyF]

theorem jget_mappedFields_attempted (item : JSVal) :
    jget (.obj (mappedFields item)) "attempted_at" = jget item "attempted_at" := by
  simp [mappedFields, jget_obj, lookupField_append, hasKeyF_append, hasKeyF_optSegP,
    lookupField, hasKeyF, lookupField_optSegP]
  by_cases h : jget item "attempted_at" = .undef <;> simp [h]

theorem jget_mappedFields_params (item : JSVal) :
    jget (.obj (mappedFields item)) "params"
      = (if jget item "params" ≠ .undef ∧ jget item "params" ≠ .null then
          jget item "params" else .undef) := by
  simp [mappedFields, jget_obj, lookupField_append, hasKeyF_append, hasKeyF_optSegP,
    lookupField, hasKeyF, lookupField_optSegP]
  intro h
  by_cases hu : jget item "params" = .undef
  · simp [hu]
  · simp [hu, h hu]

theorem jget_mappedFields_insights (item : JSVal) :
    jget (.obj (mappedFields item)) "insights"
      = (if jget item "insights" ≠ .undef ∧ jget item "insights" ≠ .null then
          jget item "insights" else .undef) := by
  simp [mappedFields, jget_obj, lookupField_append, hasKeyF_append, hasKeyF_optSegP,
    lookupField, hasKeyF, lookupField_optSegP]
  intro h
  by_cases hu : jget item "insights" = .undef
  · simp [hu]
  · simp [hu, h hu]

theorem jget_mappedFields_profile_id (item : JSVal) :
    jget (.obj (mappedFields item)) "profile_id" = jget item "profile_id" := by
  simp [mappedFields, jget_obj, lookupField_append, hasKeyF_append, hasKeyF_optSegP,
    lookupField, hasKeyF, lookupField_optSegP]
  by_cases h : jget item "profile_id" = .undef <;> simp [h]

theorem jget_mappedFields_error_key (item : JSVal) :
    jget (.obj (mappedFields item)) "error" = jget item "error" := by
  simp [mappedFields, jget_obj, lookupField_append, hasKeyF_append, hasKeyF_optSegP,
    lookupField, hasKeyF, lookupField_optSegP]
  by_cases h : jget item "error" = .undef <;> simp [h]

theorem jget_mappedFields_published_url (item : JSVal) :
    jget (.obj (mappedFields item)) "published_url" = jget item "published_url" := by
  simp [mappedFields, jget_obj, lookupField_append, hasKeyF_append, hasKeyF_optSegP,
    lookupField, hasKeyF, lookupField_optSegP]
  by_cases h : jget item "published_url" = .undef <;> simp [h]

theorem optSegP_guard2_idem (v : JSVal) (k : String) :
    optSegP ((if v ≠ .undef ∧ v ≠ .null then v else .undef) ≠ .undef ∧
        (if v ≠ .undef ∧ v ≠ .null then v else .undef) ≠ .null) k
        (if v ≠ .undef ∧ v ≠ .null then v else .undef)
      = optSegP (v ≠ .undef ∧ v ≠ .null) k v := by
  by_cases h : v ≠ .undef ∧ v ≠ .null <;> simp [optSegP, h]

theorem mappedFields_idem (item : JSVal) :
    mappedFields (.obj (mappedFields item)) = mappedFields item := by
  nth_rewrite 1 [mappedFields]
  rw [jget_mappedFields_platform, jget_mappedFields_status, jget_mappedFields_attempted,
    jget_mappedFields_params, jget_mappedFields_insights, jget_mappedFields_profile_id,
    jget_mappedFields_error_key, jget_mappedFields_published_url,
    optSegP_guard2_idem, optSegP_guard2_idem]
  rfl

theorem mapPlatformItem_idem (item m : JSVal) (h : mapPlatformItem item = some m) :
    mapPlatformItem m = some m := by
  by_cases hx : item = .undef ∨ item = .null
  · rw [mapPlatformItem, if_pos hx] at h
    exact absurd h (by simp)
  · have h1 : item ≠ .undef := fun hh => hx (Or.inl hh)
    have h2 : item ≠ .null := fun hh => hx (Or.inr hh)
    rw [mapPlatformItem_eq item h1 h2] at h
    injection h with h
    rw [← h]
    rw [mapPlatformItem_eq (.obj (mappedFields item)) (fun hh => nomatch hh)
      (fun hh => nomatch hh)]
    rw [mappedFields_idem]

theorem mapM_mapPlatformItem_idem :
    ∀ (xs pl : List JSVal), xs.mapM mapPlatformItem = some pl →
      pl.mapM mapPlatformItem = some pl := by
  intro xs
  induction xs with
  | nil =>
    intro pl h
    rw [List.mapM_nil] at h
    cases h
    rfl
  | cons x xs ih =>
    intro pl h
    rw [List.mapM_cons] at h
    cases hfx : mapPlatformItem x with
    | none => rw [hfx] at h; exact absurd h (by simp)
    | some m =>
      rw [hfx] at h
      cases hrest : xs.mapM mapPlatformItem with
      | none => rw [hrest] at h; exact absurd h (by simp)
      | some pl2 =>
        rw [hrest] at h
        have hpl : m :: pl2 = pl := by simpa using h
        rw [← hpl, List.mapM_cons, mapPlatformItem_idem x m hfx, ih pl2 hrest]
        rfl

theorem jget_rf_id (post : JSVal) (pl : List JSVal) :
    jget (.obj (resultFields post pl)) "id" = jget post "id" := by
  simp [resultFields, jget_obj, lookupField_append, hasKeyF_append, hasKeyF_optSegP,
    lookupField, hasKeyF]

theorem jget_rf_content (post : JSVal) (pl : List JSVal) :
    jget (.obj (resultFields post pl)) "content" = contentOf post := by
  simp [resultFields, jget_obj, lookupField_append, hasKeyF_append, hasKeyF_optSegP,
    lookupField, hasKeyF]

theorem jget_rf_created (post : JSVal) (pl : List JSVal) :
    jget (.obj (resultFields post pl)) "created_at" = jget post "created_at" := by
  simp [resultFields, jget_obj, lookupField_append, hasKeyF_append, hasKeyF_optSegP,
    lookupField, hasKeyF]

theorem jget_rf_status (post : JSVal) (pl : List JSVal) :
    jget (.obj (resultFields post pl)) "status" = jget post "status" := by
  simp [resultFields, jget_obj, lookupField_append, hasKeyF_append, hasKeyF_optSegP,
    lookupField, hasKeyF, lookupField_optSegP]
  by_cases h : jget post "status" = .undef <;> simp [h]

theorem jget_rf_draft (post : JSVal) (pl : List JSVal) :
    jget (.obj (resultFields post pl)) "draft" = jget post "draft" := by
  simp [resultFields, jget_obj, lookupField_append, hasKeyF_append, hasKeyF_optSegP,
    lookupField, hasKeyF, lookupField_optSegP]
  by_cases h : jget post "draft" = .undef <;> simp [h]

theorem jget_rf_updated (post : JSVal) (pl : List JSVal) :
    jget (.obj (resultFields post pl)) "updated_at" = jget post "updated_at" := by
  simp [resultFields, jget_obj, lookupField_append, hasKeyF_append, hasKeyF_optSegP,
    lookupField, hasKeyF, lookupField_optSegP]
  by_cases h : jget post "updated_at" = .undef <;> simp [h]

theorem jget_rf_pgid (post : JSVal) (pl : List JSVal) :
    jget (.obj (resultFields post pl)) "profile_group_id" = jget post "profile_group_id" := by
  simp [resultFields, jget_obj, lookupField_append, hasKeyF_append, hasKeyF_optSegP,
    lookupField, hasKeyF, lookupField_optSegP]
  by_cases h : jget post "profile_group_id" = .undef <;> simp [h]

theorem jget_rf_sched (post : JSVal) (pl : List JSVal) :
    jget (.obj (resultFields post pl)) "scheduled_at"
      = (if jget post "scheduled_at" ≠ .undef ∨
            optChain (jget post "post") "scheduled_at" ≠ .undef then
          schedValOf post else .undef) := by
  simp [resultFields, jget_obj, lookupField_append, hasKeyF_append, hasKeyF_optSegP,
    lookupField, hasKeyF, lookupField_optSegP]
  intro h1 h2
  simp [h1, h2]

theorem jget_rf_post_key (post : JSVal) (pl : List JSVal) :
    jget (.obj (resultFields post pl)) "post" = .undef := by
  simp [resultFields, jget_obj, lookupField_append, hasKeyF_append, hasKeyF_optSegP,
    lookupField, hasKeyF, lookupField_optSegP]

theorem jget_rf_body (post : JSVal) (pl : List JSVal) :
    jget (.obj (resultFields post pl)) "body" = .undef := by
  simp [resultFields, jget_obj, lookupField_append, hasKeyF_append, hasKeyF_optSegP,
    lookupField, hasKeyF, lookupField_optSegP]

theorem jor_chain_absorb (a b c : JSVal) :
    jor (jor a (jor b (jor c (.str "")))) (.str "") = jor a (jor b (jor c (.str ""))) := by
  have hte : truthy (JSVal.str "") = false := rfl
  by_cases ta : truthy a <;> by_cases tb : truthy b <;> by_cases tc : truthy c <;>
    simp [jor, ta, tb, tc, hte]

theorem contentOf_rf (post : JSVal) (pl : List JSVal) :
    contentOf (.obj (resultFields post pl)) = contentOf post := by
  unfold contentOf
  rw [jget_rf_content, jget_rf_post_key, jget_rf_body]
  show jor (contentOf post) _ = _
  unfold contentOf
  simp only [optChain]
  rw [jor_undef_left, jor_undef_left]
  exact jor_chain_absorb _ _ _

theorem optSegP_ite_idem (C : Prop) [Decidable C] (s : JSVal) (k : String)
    (hs : C → s ≠ .undef) :
    optSegP ((if C then s else .undef) ≠ .undef ∨ (JSVal.undef : JSVal) ≠ .undef) k
        (if C then s else .undef)
      = optSegP C k s := by
  by_cases h : C <;> simp [optSegP, h, hs]

theorem simplifyPost_some_inv (x y : JSVal) (h : simplifyPost x = some y) :
    ∃ (xs pl : List JSVal), platformsValueOf x = .arr xs ∧
      xs.mapM mapPlatformItem = some pl ∧ y = .obj (resultFields x pl) := by
  by_cases hx : x = .undef ∨ x = .null
  · rw [simplifyPost, if_pos hx] at h
    exact absurd h (by simp)
  · rw [simplifyPost, if_neg hx] at h
    simp only [build_seg] at h
    cases hp : (jor (jget x "platforms")
        (jor (jget x "networks") (jor (jget x "accounts") (.arr [])))) with
    | arr xs =>
      rw [hp] at h
      simp only [] at h
      cases hm : xs.mapM mapPlatformItem with
      | none => rw [hm] at h; exact absurd h (by simp)
      | some pl =>
        rw [hm] at h
        refine ⟨xs, pl, by rw [platformsValueOf]; exact hp, hm, ?_⟩
        have hy : some _ = some y := h
        injection hy with hy
        exact hy.symm
    | undef => rw [hp] at h; exact absurd h (by simp)
    | null => rw [hp] at h; exact absurd h (by simp)
    | bool b => rw [hp] at h; exact absurd h (by simp)
    | num n => rw [hp] at h; exact absurd h (by simp)
    | str s => rw [hp] at h; exact absurd h (by simp)
    | obj fs => rw [hp] at h; exact absurd h (by simp)

theorem resultFields_idem (x : JSVal) (pl : List JSVal)
    (hs : (jget x "scheduled_at" ≠ .undef ∨ optChain (jget x "post") "scheduled_at" ≠ .undef)
      → schedValOf x ≠ .undef) :
    resultFields (.obj (resultFields x pl)) pl = resultFields x pl := by
  nth_rewrite 1 [resultFields]
  rw [jget_rf_id, jget_rf_created, jget_rf_status, jget_rf_draft, jget_rf_updated,
    jget_rf_pgid, contentOf_rf, jget_rf_sched, jget_rf_post_key]
  have hsv : schedValOf (.obj (resultFields x pl))
      = (if jget x "scheduled_at" ≠ .undef ∨
            optChain (jget x "post") "scheduled_at" ≠ .undef then
          schedValOf x else .undef) := by
    unfold schedValOf
    rw [jget_rf_sched, jget_rf_post_key]
    simp only [optChain]
    rw [jor_undef_left]
    rfl
  rw [hsv]
  rw [show optChain (JSVal.undef) "scheduled_at" = .undef from rfl]
  rw [optSegP_ite_idem _ _ _ hs]
  rfl

/-- C1, amended: `simplifyPost` is idempotent on every valid post payload
(an object carrying `id` and one of the content fields `content`,
`post.body`, `body`) — except in the corner the counterexample exhibits:
when `post.scheduled_at` is present but falsy while top-level `scheduled_at`
is absent, the first application binds `scheduled_at` to `undefined` and the
second application drops that binding.  Outside that corner (the negated
hypothesis below), a second application reproduces the first's output
exactly. -/
theorem simplifyPost_idem :
    ∀ (x y : JSVal),
      isPlainObject x = true →
      jget x "id" ≠ .undef →
      (jget x "content" ≠ .undef ∨ optChain (jget x "post") "body" ≠ .undef ∨
        jget x "body" ≠ .undef) →
      ¬(optChain (jget x "post") "scheduled_at" ≠ .undef ∧
        truthy (optChain (jget x "post") "scheduled_at") = false ∧
        jget x "scheduled_at" = .undef) →
      simplifyPost x = some y →
      simplifyPost y = some y := by
  intro x y _hobj _hid _hcontent hguard hxy
  obtain ⟨xs, pl, hp, hm, hy⟩ := simplifyPost_some_inv x y hxy
  subst hy
  have hs : (jget x "scheduled_at" ≠ .undef ∨
      optChain (jget x "post") "scheduled_at" ≠ .undef) → schedValOf x ≠ .undef := by
    intro hC heq
    unfold schedValOf jor at heq
    by_cases tp : truthy (optChain (jget x "post") "scheduled_at") = true
    · rw [if_pos tp] at heq
      rw [heq] at tp
      exact absurd tp (by simp [truthy])
    · rw [if_neg tp] at heq
      simp only [Bool.not_eq_true] at tp
      rcases hC with h | h
      · exact h heq
      · exact hguard ⟨h, tp, heq⟩
  have hplat_y : platformsValueOf (.obj (resultFields x pl)) = .arr pl := by
    unfold platformsValueOf
    rw [jget_resultFields_platforms]
    rfl
  have hmap_y := mapM_mapPlatformItem_idem xs pl hm
  have hsim := simplifyPost_eq (.obj (resultFields x pl)) (fun hh => nomatch hh)
    (fun hh => nomatch hh) pl hplat_y pl hmap_y
  rw [hsim, resultFields_idem x pl hs]

/-- Counterexample to C1 as stated: for the valid payload
`\x7bid: "1", content: "hi", post: \x7bscheduled_at: null\x7d\x7d` the first
application emits a `scheduled_at: undefined` binding (since
`post.scheduled_at || scheduled_at` evaluates to `undefined`), and the
second application produces an object without that binding, so
`simplifyPost (simplifyPost x)` is not structurally equal to
`simplifyPost x`. -/
theorem simplifyPost_idem_counterexample :
    simplifyPost (.obj [("id", .str "1"), ("content", .str "hi"),
        ("post", .obj [("scheduled_at", .null)])])
      = some (.obj [("id", .str "1"), ("content", .str "hi"), ("created_at", .undef),
          ("scheduled_at", .undef), ("platforms", .arr []), ("network_statuses", .arr [])]) ∧
    simplifyPost (.obj [("id", .str "1"), ("content", .str "hi"), ("created_at", .undef),
        ("scheduled_at", .undef), ("platforms", .arr []), ("network_statuses", .arr [])])
      = some (.obj [("id", .str "1"), ("content", .str "hi"), ("created_at", .undef),
          ("platforms", .arr []), ("network_statuses", .arr [])]) ∧
    (JSVal.obj [("id", .str "1"), ("content", .str "hi"), ("created_at", .undef),
        ("platforms", .arr []), ("network_statuses", .arr [])])
      ≠ (.obj [("id", .str "1"), ("content", .str "hi"), ("created_at", .undef),
          ("scheduled_at", .undef), ("platforms", .arr []), ("network_statuses", .arr [])]) :=
  ⟨by decide, by decide, by decide⟩

/-- Witness for C1's amended theorem at the concrete payload
`\x7bid: "1", content: "hi"\x7d`. -/
theorem simplifyPost_idem_witness :
    simplifyPost (.obj [("id", .str "1"), ("content", .str "hi"), ("created_at", .undef),
        ("platforms", .arr []), ("network_statuses", .arr [])])
      = some (.obj [("id", .str "1"), ("content", .str "hi"), ("created_at", .undef),
          ("platforms", .arr []), ("network_statuses", .arr [])]) :=
  simplifyPost_idem (.obj [("id", .str "1"), ("content", .str "hi")])
    (.obj [("id", .str "1"), ("content", .str "hi"), ("created_at", .undef),
      ("platforms", .arr []), ("network_statuses", .arr [])])
    (by decide) (by decide) (Or.inl (by decide)) (by decide) (by decide)

end PostProxy
